import Mathlib

/-!
Shallow embedding of the pd-driver-messages crate (src/lib.rs, src/messages.rs,
src/error.rs).

Conventions of the embedding:
* Machine integers (`u8`, `u16`, `usize`) are modelled as `Nat` with an explicit
  `% 256` (resp. `% 65536`) wherever the source's arithmetic wraps; `i16`
  fields are represented by their unsigned 16-bit bit pattern, which makes the
  source's byte-level encode/decode (`& 0xff`, `>> 8`, `as u8`, `as i16`) exact.
* Fallible operations return `Except ParseError`; operations that can abort the
  process (a slice-index panic or `unwrap()` of `None`) return `Option`, with
  `none` marking the abort.
* The Rust `WorkingBuffer` holds a fixed 128-byte array together with `count`;
  no method ever reads an index `≥ count`, so the buffer is modelled as the
  list of its first `count` live bytes and `count` is the list length.
-/

/-- Embeds `ParseError` (src/error.rs). -/
inductive ParseError where
  | SizeOverrun : ParseError
  | ChecksumError : Nat → Nat → ParseError
  | UnknownPacketId : Nat → ParseError
  | DeserializationError : ParseError
  deriving Repr, DecidableEq

instance {ε α : Type} [DecidableEq ε] [DecidableEq α] : DecidableEq (Except ε α) := by
  intro a b
  cases a <;> cases b
  case error.error e f =>
    cases decEq e f with
    | isTrue h => exact isTrue (by rw [h])
    | isFalse h => exact isFalse (by intro hc; cases hc; exact h rfl)
  case error.ok _ _ => exact isFalse (by intro hc; cases hc)
  case ok.error _ _ => exact isFalse (by intro hc; cases hc)
  case ok.ok x y =>
    cases decEq x y with
    | isTrue h => exact isTrue (by rw [h])
    | isFalse h => exact isFalse (by intro hc; cases hc; exact h rfl)

def MAX_MESSAGE_SIZE : Nat := 128

/-- Embeds `Checksum` (src/lib.rs): two 8-bit wrapping accumulators. -/
structure Checksum where
  a : Nat
  b : Nat
  deriving Repr, DecidableEq

/-- Embeds `Checksum::add_byte`: `self.a = self.a.wrapping_add(x)`, then
`self.b = self.b.wrapping_add(self.a)` with the already-updated `a`. -/
def Checksum.add_byte (c : Checksum) (x : Nat) : Checksum :=
  { a := (c.a + x) % 256, b := (c.b + (c.a + x) % 256) % 256 }

/-- Embeds `Checksum::get`. -/
def Checksum.get (c : Checksum) : Nat × Nat := (c.a, c.b)

/-- Embeds the free function `checksum` (src/lib.rs): fold `add_byte` over the
data starting from `Checksum::default()` (both accumulators zero). -/
def checksum (data : List Nat) : Nat × Nat :=
  (data.foldl Checksum.add_byte { a := 0, b := 0 }).get

/-! ## Message catalog (src/messages.rs) -/

def ELECTRODE_ENABLE_ID : Nat := 0
def DRIVE_ENABLE_ID : Nat := 1
def BULK_CAPACITANCE_ID : Nat := 2
def ACTIVE_CAPACITANCE_ID : Nat := 3
def COMMAND_ACK_ID : Nat := 4
def MOVE_STEPPER_ID : Nat := 5

structure CommandAckStruct where
  acked_id : Nat
  deriving Repr, DecidableEq

structure ElectrodeEnableStruct where
  values : List Nat
  deriving Repr, DecidableEq

structure BulkCapacitanceStruct where
  start_index : Nat
  values : List Nat
  deriving Repr, DecidableEq

structure ActiveCapacitanceStruct where
  baseline : Nat
  measurement : Nat
  deriving Repr, DecidableEq

structure MoveStepperStruct where
  steps : Nat
  period : Nat
  deriving Repr, DecidableEq

/-- Embeds the `Message` enum. -/
inductive Message where
  | ElectrodeEnableMsg : ElectrodeEnableStruct → Message
  | BulkCapacitanceMsg : BulkCapacitanceStruct → Message
  | ActiveCapacitanceMsg : ActiveCapacitanceStruct → Message
  | CommandAckMsg : CommandAckStruct → Message
  | MoveStepperMsg : MoveStepperStruct → Message
  deriving Repr, DecidableEq

/-- Embeds `CommandAckStruct::payload`: pushes the single `acked_id` byte. -/
def CommandAckStruct.payload (s : CommandAckStruct) : List Nat :=
  [s.acked_id]

/-- Embeds `<CommandAckStruct as MessageStruct>::message_size`: always `Some(0)`. -/
def CommandAckStruct.message_size (_data : List Nat) : Option Nat :=
  some 0

/-- Embeds `TryFrom<&[u8]> for CommandAckStruct`. -/
def CommandAckStruct.try_from (data : List Nat) : Except ParseError CommandAckStruct :=
  if data.length < 1 then Except.error ParseError.DeserializationError
  else Except.ok { acked_id := data.getD 0 0 }

/-- Embeds `ElectrodeEnableStruct::payload`: the 16 raw value bytes. -/
def ElectrodeEnableStruct.payload (s : ElectrodeEnableStruct) : List Nat :=
  s.values

/-- Embeds `<ElectrodeEnableStruct as MessageStruct>::message_size`. -/
def ElectrodeEnableStruct.message_size (_data : List Nat) : Option Nat :=
  some 16

/-- Embeds `TryFrom<&[u8]> for ElectrodeEnableStruct`: requires exactly 16
bytes and copies them. -/
def ElectrodeEnableStruct.try_from (data : List Nat) : Except ParseError ElectrodeEnableStruct :=
  if data.length ≠ 16 then Except.error ParseError.DeserializationError
  else Except.ok { values := data }

/-- Embeds `BulkCapacitanceStruct::payload`: `start_index`, then
`values.len() as u8`, then each value little-endian (`x & 0xff`, `(x >> 8) as u8`). -/
def BulkCapacitanceStruct.payload (s : BulkCapacitanceStruct) : List Nat :=
  s.start_index :: s.values.length % 256 :: s.values.flatMap (fun x => [x % 256, x / 256 % 256])

/-- Embeds `<BulkCapacitanceStruct as MessageStruct>::message_size`:
`None` until 2 bytes are present, otherwise `Some((data[1] * 2 + 2) as usize)`.
The multiplication and addition are performed on `u8`, so they wrap mod 256
(release-profile semantics; a debug build would abort on the overflow). -/
def BulkCapacitanceStruct.message_size (data : List Nat) : Option Nat :=
  if data.length < 2 then none
  else some ((data.getD 1 0 * 2 + 2) % 256)

/-- Embeds the value-reading loop of `TryFrom<&[u8]> for BulkCapacitanceStruct`:
`for i in 0..count { x = data[(i*2+2) as usize] as u16 + ((data[(i*2+3) as usize] as u16) << 8) }`.
`i`, hence `i*2+2` and `i*2+3`, is a `u8`, so the indices wrap mod 256.  An
index outside `data` is a panic, modelled as `none`.  Recursion is on the loop
bound, appending values in loop order. -/
def bulk_read_values (data : List Nat) : Nat → Option (List Nat)
  | 0 => some []
  | n + 1 =>
    match bulk_read_values data n, data.get? ((n * 2 + 2) % 256), data.get? ((n * 2 + 3) % 256) with
    | some vs, some lo, some hi => some (vs ++ [lo + hi * 256])
    | _, _, _ => none

/-- Embeds `TryFrom<&[u8]> for BulkCapacitanceStruct`.  The bound check
`data.len() < (2 + count * 2) as usize` is `u8` arithmetic, so it wraps mod 256;
for wrapped counts the subsequent loop indexes out of bounds (a panic, `none`). -/
def BulkCapacitanceStruct.try_from (data : List Nat) : Option (Except ParseError BulkCapacitanceStruct) :=
  if data.length < 2 then some (Except.error ParseError.DeserializationError)
  else
    let count := data.getD 1 0
    if data.length < (2 + count * 2) % 256 then some (Except.error ParseError.DeserializationError)
    else
      match bulk_read_values data count with
      | none => none
      | some vs => some (Except.ok { start_index := data.getD 0 0, values := vs })

/-- Embeds `ActiveCapacitanceStruct::payload`: `baseline` then `measurement`,
each little-endian. -/
def ActiveCapacitanceStruct.payload (s : ActiveCapacitanceStruct) : List Nat :=
  [s.baseline % 256, s.baseline / 256 % 256, s.measurement % 256, s.measurement / 256 % 256]

/-- Embeds `<ActiveCapacitanceStruct as MessageStruct>::message_size`. -/
def ActiveCapacitanceStruct.message_size (_data : List Nat) : Option Nat :=
  some 4

/-- Embeds `TryFrom<&[u8]> for ActiveCapacitanceStruct`. -/
def ActiveCapacitanceStruct.try_from (data : List Nat) : Except ParseError ActiveCapacitanceStruct :=
  if data.length < 4 then Except.error ParseError.DeserializationError
  else Except.ok
    { baseline := data.getD 0 0 + data.getD 1 0 * 256
      measurement := data.getD 2 0 + data.getD 3 0 * 256 }

/-- Embeds `MoveStepperStruct::payload`: `steps` (i16 bit pattern) then
`period`, each little-endian. -/
def MoveStepperStruct.payload (s : MoveStepperStruct) : List Nat :=
  [s.steps % 256, s.steps / 256 % 256, s.period % 256, s.period / 256 % 256]

/-- Embeds `<MoveStepperStruct as MessageStruct>::message_size`. -/
def MoveStepperStruct.message_size (_data : List Nat) : Option Nat :=
  some 4

/-- Embeds `TryFrom<&[u8]> for MoveStepperStruct`. -/
def MoveStepperStruct.try_from (data : List Nat) : Except ParseError MoveStepperStruct :=
  if data.length < 4 then Except.error ParseError.DeserializationError
  else Except.ok
    { steps := data.getD 0 0 + data.getD 1 0 * 256
      period := data.getD 2 0 + data.getD 3 0 * 256 }

/-- Embeds `Message::message_size`: dispatch on the wire id.  The source's
`match` has no arm for `MOVE_STEPPER_ID`, which therefore falls into the
default `_ => Some(0)` together with every unknown id. -/
def Message.message_size (id : Nat) (data : List Nat) : Option Nat :=
  if id = ELECTRODE_ENABLE_ID then ElectrodeEnableStruct.message_size data
  else if id = BULK_CAPACITANCE_ID then BulkCapacitanceStruct.message_size data
  else if id = ACTIVE_CAPACITANCE_ID then ActiveCapacitanceStruct.message_size data
  else if id = COMMAND_ACK_ID then CommandAckStruct.message_size data
  else some 0

/-- Embeds `Message::from_payload`: dispatch on the wire id; the source's
`match` has no arm for `MOVE_STEPPER_ID`, which therefore falls into the
default `_ => Err(UnknownPacketId(id))`.  The outer `Option` propagates the
panic that `BulkCapacitanceStruct::try_from` can raise. -/
def Message.from_payload (id : Nat) (data : List Nat) : Option (Except ParseError Message) :=
  if id = ELECTRODE_ENABLE_ID then some ((ElectrodeEnableStruct.try_from data).map Message.ElectrodeEnableMsg)
  else if id = BULK_CAPACITANCE_ID then
    Option.map (fun r => r.map Message.BulkCapacitanceMsg) (BulkCapacitanceStruct.try_from data)
  else if id = ACTIVE_CAPACITANCE_ID then some ((ActiveCapacitanceStruct.try_from data).map Message.ActiveCapacitanceMsg)
  else if id = COMMAND_ACK_ID then some ((CommandAckStruct.try_from data).map Message.CommandAckMsg)
  else some (Except.error (ParseError.UnknownPacketId id))

/-! ## Receive buffer (src/lib.rs) -/

/-- Embeds `WorkingBuffer`: `data` is the live prefix `buffer[0..count]`, so
`count` is `data.length`. -/
structure WorkingBuffer where
  data : List Nat
  deriving Repr, DecidableEq

/-- The `count` field of the Rust struct. -/
def WorkingBuffer.count (b : WorkingBuffer) : Nat := b.data.length

/-- Embeds `WorkingBuffer::msg_id`: byte 0 once at least one byte is held. -/
def WorkingBuffer.msg_id (b : WorkingBuffer) : Option Nat :=
  if 0 < b.count then some (b.data.getD 0 0) else none

/-- Embeds `WorkingBuffer::payload`: the slice `buffer[1..count-2]` when
`count >= 3`, else the empty slice. -/
def WorkingBuffer.payload (b : WorkingBuffer) : List Nat :=
  if 3 ≤ b.count then (b.data.take (b.count - 2)).drop 1 else []

/-- Embeds `WorkingBuffer::checksum` (the stored two-byte trailer); renamed
because the free function `checksum` already carries the source's name. -/
def WorkingBuffer.stored_checksum (b : WorkingBuffer) : Nat × Nat :=
  if b.count < 3 then (0, 0)
  else (b.data.getD (b.count - 2) 0, b.data.getD (b.count - 1) 0)

/-- Embeds `WorkingBuffer::calc_checksum`: `checksum(&buffer[0..count-2])` when
`count > 0`, else `(0, 0)`.  When `count = 1` the `usize` expression
`count - 2` underflows and the slice aborts the process: that case is `none`. -/
def WorkingBuffer.calc_checksum (b : WorkingBuffer) : Option (Nat × Nat) :=
  if 0 < b.count then
    if 2 ≤ b.count then some (checksum (b.data.take (b.count - 2))) else none
  else some (0, 0)

/-- Embeds `WorkingBuffer::is_complete`. -/
def WorkingBuffer.is_complete (b : WorkingBuffer) : Bool :=
  match b.msg_id with
  | none => false
  | some id =>
    match Message.message_size id b.payload with
    | some n => if b.count = n + 3 then true else false
    | none => false

/-- Embeds `WorkingBuffer::push`: appends when `count < MAX_MESSAGE_SIZE`,
otherwise fails with `SizeOverrun` leaving the buffer unchanged.  The pair
returns the (possibly updated) `&mut self` state next to the `Result`. -/
def WorkingBuffer.push (b : WorkingBuffer) (byte : Nat) : WorkingBuffer × Option ParseError :=
  if b.count < MAX_MESSAGE_SIZE then ({ data := b.data ++ [byte] }, none)
  else (b, some ParseError.SizeOverrun)

/-- Embeds `WorkingBuffer::reset`: `count = 0`. -/
def WorkingBuffer.reset (_b : WorkingBuffer) : WorkingBuffer :=
  { data := [] }

/-- Embeds `WorkingBuffer::new`. -/
def WorkingBuffer.new : WorkingBuffer :=
  { data := [] }

/-! ## Frame encoder (src/lib.rs) -/

/-- Embeds the local `escaped_push` of `serialize_raw`: `0x7D`/`0x7E` become
`0x7D (b ^ 0x20)`, everything else is pushed verbatim. -/
def escaped_push (b : Nat) (buf : List Nat) : List Nat :=
  if b = 0x7d ∨ b = 0x7e then buf ++ [0x7d, b ^^^ 0x20] else buf ++ [b]

/-- The wire encoding of one raw byte (proof-side view of `escaped_push`). -/
def escSeq (b : Nat) : List Nat :=
  if b = 0x7d ∨ b = 0x7e then [0x7d, b ^^^ 0x20] else [b]

/-- Embeds `serialize_raw`: frame-start `0x7E`, escaped id, escaped payload
bytes, escaped checksum trailer.  The source interleaves `chk.add_byte` with
the pushes; the resulting trailer is exactly `checksum(id :: payload)`. -/
def serialize_raw (id : Nat) (payload : List Nat) : List Nat :=
  let chk := checksum (id :: payload)
  escaped_push chk.2 (escaped_push chk.1 (payload.foldl (fun buf b => escaped_push b buf) (escaped_push id [0x7e])))

/-- Embeds `serialize_msg::<T>` at each of the crate's `MessageStruct`
implementations: serialize by the variant's `id()` and `payload()`. -/
def serialize_msg (m : Message) : List Nat :=
  match m with
  | Message.ElectrodeEnableMsg s => serialize_raw ELECTRODE_ENABLE_ID s.payload
  | Message.BulkCapacitanceMsg s => serialize_raw BULK_CAPACITANCE_ID s.payload
  | Message.ActiveCapacitanceMsg s => serialize_raw ACTIVE_CAPACITANCE_ID s.payload
  | Message.CommandAckMsg s => serialize_raw COMMAND_ACK_ID s.payload
  | Message.MoveStepperMsg s => serialize_raw MOVE_STEPPER_ID s.payload

/-! ## Frame parser (src/lib.rs) -/

/-- Embeds `Parser`. -/
structure Parser where
  parsing : Bool
  escaping : Bool
  buffer : WorkingBuffer
  deriving Repr, DecidableEq

/-- Embeds `Parser::new`. -/
def Parser.new : Parser :=
  { parsing := false, escaping := false, buffer := WorkingBuffer.new }

/-- Embeds `Parser::reset`. -/
def Parser.reset (p : Parser) : Parser :=
  { parsing := false, escaping := false, buffer := p.buffer.reset }

/-- The tail of `Parser::parse` after escape/frame-start handling: push the
(already unescaped) byte, then check completeness, checksum and decode.
Returns the updated parser next to the call's `Result`; `none` is a panic
(possible only through `calc_checksum` at `count = 1`, `msg_id().unwrap()`,
or a decode panic — all shown unreachable elsewhere in this file).
Note the decode-failure branch: the source computes `result`, resets, and
returns `Ok(Some(..))` only `if result.is_ok()`; a decode `Err` falls through
to the final `Ok(None)` and is discarded. -/
def Parser.parse_body (p : Parser) (byte : Nat) : Option (Parser × Except ParseError (Option Message)) :=
  match p.buffer.push byte with
  | (_, some _) => some (p.reset, Except.ok none)
  | (wb, none) =>
    let q : Parser := { p with buffer := wb }
    if wb.is_complete then
      match wb.calc_checksum with
      | none => none
      | some cc =>
        if wb.stored_checksum = cc then
          match wb.msg_id with
          | none => none
          | some id =>
            match Message.from_payload id wb.payload with
            | none => none
            | some (Except.ok msg) => some (q.reset, Except.ok (some msg))
            | some (Except.error _) => some (q.reset, Except.ok none)
        else
          some (q.reset, Except.error (ParseError.ChecksumError
            (wb.stored_checksum.1 + wb.stored_checksum.2 * 256)
            (cc.1 + cc.2 * 256)))
    else some (q, Except.ok none)

/-- Embeds `Parser::parse`: pending escape is applied first (the unescaped
byte is *not* re-checked against `0x7D`/`0x7E`); otherwise `0x7D` arms the
escape flag and `0x7E` performs a full reset, each returning `Ok(None)`. -/
def Parser.parse (p : Parser) (byte : Nat) : Option (Parser × Except ParseError (Option Message)) :=
  if p.escaping then
    Parser.parse_body { p with escaping := false } (byte ^^^ 0x20)
  else if byte = 0x7d then
    some ({ p with escaping := true }, Except.ok none)
  else if byte = 0x7e then
    some (p.reset, Except.ok none)
  else
    Parser.parse_body p byte

/-- Drives `Parser::parse` over a whole byte list, collecting every per-byte
outcome in order (the test helper `tests::parse_message` folded without early
exit); `none` if any call panics. -/
def feed_all : Parser → List Nat → Option (Parser × List (Except ParseError (Option Message)))
  | p, [] => some (p, [])
  | p, b :: rest =>
    match p.parse b with
    | none => none
    | some (q, r) =>
      match feed_all q rest with
      | none => none
      | some (pf, rs) => some (pf, r :: rs)

/-! ## Checksum algebra (claim C4) -/

lemma checksum_foldl_spec (d : List Nat) : ∀ c : Checksum, c.a < 256 → c.b < 256 →
    (List.foldl Checksum.add_byte c d).a = (c.a + d.sum) % 256 ∧
    (List.foldl Checksum.add_byte c d).b =
      (c.b + (d.length * c.a + ∑ i ∈ Finset.range d.length, (d.take (i + 1)).sum)) % 256 := by
  induction d with
  | nil =>
    intro c ha hb
    simp [Nat.mod_eq_of_lt ha, Nat.mod_eq_of_lt hb]
  | cons x t ih =>
    intro c _ _
    obtain ⟨iha, ihb⟩ := ih (c.add_byte x) (Nat.mod_lt _ (by norm_num)) (Nat.mod_lt _ (by norm_num))
    rw [List.foldl_cons]
    refine ⟨?_, ?_⟩
    · rw [iha]
      show ((c.a + x) % 256 + t.sum) % 256 = (c.a + (x :: t).sum) % 256
      rw [Nat.mod_add_mod, List.sum_cons, Nat.add_assoc]
    · rw [ihb]
      show ((c.b + (c.a + x) % 256) % 256 +
          (t.length * ((c.a + x) % 256) + ∑ i ∈ Finset.range t.length, (t.take (i + 1)).sum)) % 256 =
        (c.b + ((x :: t).length * c.a + ∑ i ∈ Finset.range (x :: t).length, (((x :: t).take (i + 1)).sum))) % 256
      have hsum : ∑ i ∈ Finset.range (t.length + 1), (((x :: t).take (i + 1)).sum) =
          (t.length + 1) * x + ∑ i ∈ Finset.range t.length, (t.take (i + 1)).sum := by
        calc ∑ i ∈ Finset.range (t.length + 1), (((x :: t).take (i + 1)).sum)
            = ∑ i ∈ Finset.range (t.length + 1), (x + (t.take i).sum) := by
              exact Finset.sum_congr rfl (fun i _ => by simp)
          _ = (t.length + 1) * x + ∑ i ∈ Finset.range (t.length + 1), (t.take i).sum := by
              rw [Finset.sum_add_distrib, Finset.sum_const, Finset.card_range, smul_eq_mul]
          _ = (t.length + 1) * x + ∑ i ∈ Finset.range t.length, (t.take (i + 1)).sum := by
              rw [Finset.sum_range_succ']
              simp
      rw [List.length_cons, hsum]
      have h1 : (c.b + (c.a + x) % 256) % 256 ≡ c.b + (c.a + x) [MOD 256] :=
        (Nat.mod_modEq _ 256).trans ((Nat.mod_modEq (c.a + x) 256).add_left c.b)
      have h2 : t.length * ((c.a + x) % 256) ≡ t.length * (c.a + x) [MOD 256] :=
        (Nat.mod_modEq (c.a + x) 256).mul_left t.length
      have hmod := h1.add (h2.add_right (∑ i ∈ Finset.range t.length, (t.take (i + 1)).sum))
      rw [Nat.ModEq] at hmod
      rw [hmod]
      congr 1
      ring

/-- Claim C4: `add_byte(x)` updates `a` to `(a + x) mod 256` and then `b` to
`(b + new a) mod 256`; consequently `checksum(d)` is the wrapping sum of the
bytes together with the wrapping sum of all prefix sums of `d`, starting from
`(0, 0)`. -/
theorem c4_checksum_spec :
    (∀ (c : Checksum) (x : Nat),
      (c.add_byte x).a = (c.a + x) % 256 ∧ (c.add_byte x).b = (c.b + (c.a + x) % 256) % 256) ∧
    (∀ d : List Nat,
      checksum d = (d.sum % 256, (∑ i ∈ Finset.range d.length, (d.take (i + 1)).sum) % 256)) := by
  refine ⟨fun c x => ⟨rfl, rfl⟩, fun d => ?_⟩
  obtain ⟨ha, hb⟩ := checksum_foldl_spec d { a := 0, b := 0 } (by norm_num) (by norm_num)
  unfold checksum Checksum.get
  rw [ha, hb]
  simp

/-! ## Buffer completeness (claim C5) -/

/-- Claim C5: `is_complete` is false with no id byte; when the size probe on
`(id, payload)` answers `Some n` it is true exactly at `count = n + 3`; and a
`None` probe answer means not complete at any count. -/
theorem c5_is_complete_spec :
    ∀ b : WorkingBuffer,
      (b.count = 0 → b.is_complete = false) ∧
      (∀ id n, b.msg_id = some id → Message.message_size id b.payload = some n →
        (b.is_complete = true ↔ b.count = n + 3)) ∧
      (∀ id, b.msg_id = some id → Message.message_size id b.payload = none →
        b.is_complete = false) := by
  intro b
  refine ⟨?_, ?_, ?_⟩
  · intro h
    have hid : b.msg_id = none := by simp [WorkingBuffer.msg_id, h]
    simp [WorkingBuffer.is_complete, hid]
  · intro id n hid hn
    simp only [WorkingBuffer.is_complete, hid, hn]
    constructor
    · intro h
      by_contra hne
      rw [if_neg hne] at h
      exact Bool.false_ne_true h
    · intro h
      rw [if_pos h]
  · intro id hid hn
    simp [WorkingBuffer.is_complete, hid, hn]

theorem c5_is_complete_spec_witness :
    (WorkingBuffer.mk [6, 0, 0]).is_complete = true ↔ (WorkingBuffer.mk [6, 0, 0]).count = 0 + 3 :=
  (c5_is_complete_spec (WorkingBuffer.mk [6, 0, 0])).2.1 6 0 (by decide) (by decide)

/-! ## Bulk-capacitance size probe (claim C7) -/

/-- Claim C7 as stated is false: the source computes `data[1] * 2 + 2` in `u8`
arithmetic, so at count byte 127 it returns `Some(0)` — not `Some(256)` as the
claim's formula `c * 2 + 2` demands (the second conjunct is the claim's
predicted equation evaluating to `false`). -/
theorem c7_bulk_size_counterexample :
    BulkCapacitanceStruct.message_size [0, 127] = some 0 ∧
    decide (BulkCapacitanceStruct.message_size [0, 127] = some (127 * 2 + 2)) = false := by
  decide

/-- Claim C7 amended: with fewer than 2 payload bytes the probe returns `None`;
otherwise it returns `Some((c * 2 + 2) mod 256)` for the count byte `c = data[1]`
(the wrap occurring for `c ≥ 127`, release-profile `u8` semantics). -/
theorem c7_bulk_size_amended :
    (∀ data : List Nat, data.length < 2 → BulkCapacitanceStruct.message_size data = none) ∧
    (∀ (data : List Nat) (c : Nat), 2 ≤ data.length → data.getD 1 0 = c →
      BulkCapacitanceStruct.message_size data = some ((c * 2 + 2) % 256)) := by
  constructor
  · intro data h
    unfold BulkCapacitanceStruct.message_size
    rw [if_pos h]
  · intro data c h hc
    unfold BulkCapacitanceStruct.message_size
    rw [if_neg (by omega), hc]

theorem c7_bulk_size_amended_witness :
    BulkCapacitanceStruct.message_size [0, 200] = some ((200 * 2 + 2) % 256) :=
  c7_bulk_size_amended.2 [0, 200] 200 (by decide) (by decide)

/-! ## Buffer capacity invariant (claim C8) -/

/-- Claim C8: `0 ≤ count ≤ 128` (the lower bound is inherent to `Nat`) is
preserved: `push` appends and increments `count` when `count < 128`, fails with
`SizeOverrun` leaving the buffer unchanged when `count = 128`, and a failing
push inside `Parser::parse` resets all parser state and yields `Ok(None)`. -/
theorem c8_capacity_invariant :
    (∀ (b : WorkingBuffer) (x : Nat), b.count ≤ 128 → (b.push x).1.count ≤ 128) ∧
    (∀ (b : WorkingBuffer) (x : Nat), b.count < 128 →
      b.push x = ({ data := b.data ++ [x] }, none)) ∧
    (∀ (b : WorkingBuffer) (x : Nat), b.count = 128 →
      b.push x = (b, some ParseError.SizeOverrun)) ∧
    (∀ (p : Parser) (x : Nat), p.buffer.count = 128 →
      (p.escaping = true ∨ (x ≠ 0x7d ∧ x ≠ 0x7e)) →
      Parser.parse p x = some (Parser.new, Except.ok none)) := by
  have hfail : ∀ (b : WorkingBuffer) (x : Nat), b.count = 128 →
      b.push x = (b, some ParseError.SizeOverrun) := by
    intro b x h
    unfold WorkingBuffer.push MAX_MESSAGE_SIZE
    rw [if_neg (by omega)]
  have hbody : ∀ (p : Parser) (x : Nat), p.buffer.count = 128 →
      Parser.parse_body p x = some (Parser.new, Except.ok none) := by
    intro p x h
    unfold Parser.parse_body
    rw [hfail p.buffer x h]
    rfl
  refine ⟨?_, ?_, hfail, ?_⟩
  · intro b x h
    unfold WorkingBuffer.push MAX_MESSAGE_SIZE
    by_cases hlt : b.count < 128
    · rw [if_pos hlt]
      show (b.data ++ [x]).length ≤ 128
      have hc : b.data.length < 128 := hlt
      simp only [List.length_append, List.length_singleton]
      omega
    · rw [if_neg hlt]
      exact h
  · intro b x h
    unfold WorkingBuffer.push MAX_MESSAGE_SIZE
    rw [if_pos h]
  · intro p x h hside
    unfold Parser.parse
    rcases hside with hesc | ⟨h7d, h7e⟩
    · rw [if_pos hesc]
      exact hbody _ _ h
    · by_cases hesc : p.escaping = true
      · rw [if_pos hesc]
        exact hbody _ _ h
      · rw [if_neg hesc, if_neg h7d, if_neg h7e]
        exact hbody _ _ h

theorem c8_capacity_invariant_witness :
    Parser.parse { parsing := false, escaping := false, buffer := { data := List.replicate 128 0 } } 1 =
      some (Parser.new, Except.ok none) :=
  c8_capacity_invariant.2.2.2
    { parsing := false, escaping := false, buffer := { data := List.replicate 128 0 } } 1
    (by simp [WorkingBuffer.count]) (by decide)

/-! ## Errors reset the parser (claim C9) -/

lemma parse_body_error_resets (p : Parser) (x : Nat) (q : Parser) (e : ParseError)
    (h : Parser.parse_body p x = some (q, Except.error e)) : q = Parser.new := by
  unfold Parser.parse_body at h
  repeat' split at h
  all_goals simp_all [Parser.reset, WorkingBuffer.reset, Parser.new, WorkingBuffer.new]

/-- Claim C9: whenever `Parser::parse` returns an `Err`, the parser state
returned with it is the freshly constructed state (empty buffer, flags clear):
no error is sticky. -/
theorem c9_error_resets :
    ∀ (p : Parser) (x : Nat) (q : Parser) (e : ParseError),
      Parser.parse p x = some (q, Except.error e) → q = Parser.new := by
  intro p x q e h
  unfold Parser.parse at h
  split at h
  · exact parse_body_error_resets _ _ _ _ h
  · split at h
    · simp at h
    · split at h
      · simp at h
      · exact parse_body_error_resets _ _ _ _ h

theorem c9_error_resets_witness : Parser.new = Parser.new :=
  c9_error_resets { parsing := false, escaping := false, buffer := { data := [6, 0] } } 0
    Parser.new (ParseError.ChecksumError 0 1542) (by decide)

/-! ## Partiality of calc_checksum (claim C10) -/

/-- Claim C10: `calc_checksum` aborts (usize underflow in `count - 2`) exactly
when `count = 1`, and is total for `count = 0` and `count ≥ 2`; `is_complete`
implies `count ≥ 3`, so `Parser::parse`, which recomputes the checksum only
after `is_complete()`, can never reach the abort. -/
theorem c10_calc_checksum_partial :
    (∀ b : WorkingBuffer, b.calc_checksum = none ↔ b.count = 1) ∧
    (∀ b : WorkingBuffer, b.is_complete = true →
      3 ≤ b.count ∧ b.calc_checksum.isSome = true) := by
  constructor
  · intro b
    unfold WorkingBuffer.calc_checksum
    by_cases h0 : 0 < b.count
    · by_cases h2 : 2 ≤ b.count
      · rw [if_pos h0, if_pos h2]
        simp
        omega
      · rw [if_pos h0, if_neg h2]
        simp
        omega
    · rw [if_neg h0]
      simp
      omega
  · intro b h
    have h3 : 3 ≤ b.count := by
      unfold WorkingBuffer.is_complete at h
      split at h
      · exact absurd h (by simp)
      · split at h
        · split at h
          · omega
          · exact absurd h (by simp)
        · exact absurd h (by simp)
    refine ⟨h3, ?_⟩
    unfold WorkingBuffer.calc_checksum
    rw [if_pos (by omega), if_pos (by omega)]
    rfl

theorem c10_calc_checksum_partial_witness :
    3 ≤ (WorkingBuffer.mk [6, 0, 0]).count ∧
      ((WorkingBuffer.mk [6, 0, 0]).calc_checksum).isSome = true :=
  c10_calc_checksum_partial.2 (WorkingBuffer.mk [6, 0, 0]) (by decide)

/-! ## Decode errors are discarded by Parser::parse (claim C2) -/

lemma parse_body_swallows_decode_error (p : Parser) (eff : Nat) (e : ParseError)
    (hcap : p.buffer.count < 128)
    (hcompl : (WorkingBuffer.mk (p.buffer.data ++ [eff])).is_complete = true)
    (hchk : (WorkingBuffer.mk (p.buffer.data ++ [eff])).calc_checksum =
      some ((WorkingBuffer.mk (p.buffer.data ++ [eff])).stored_checksum))
    (hdec : Message.from_payload ((p.buffer.data ++ [eff]).getD 0 0)
      ((WorkingBuffer.mk (p.buffer.data ++ [eff])).payload) = some (Except.error e)) :
    Parser.parse_body p eff = some (Parser.new, Except.ok none) := by
  have hpush : p.buffer.push eff = (WorkingBuffer.mk (p.buffer.data ++ [eff]), none) := by
    unfold WorkingBuffer.push MAX_MESSAGE_SIZE
    rw [if_pos hcap]
  have hid : (WorkingBuffer.mk (p.buffer.data ++ [eff])).msg_id =
      some ((p.buffer.data ++ [eff]).getD 0 0) := by
    unfold WorkingBuffer.msg_id
    rw [if_pos (by simp [WorkingBuffer.count])]
  unfold Parser.parse_body
  rw [hpush]
  simp only [hcompl, hchk, hid, hdec, if_true]
  simp [Parser.reset, WorkingBuffer.reset, Parser.new, WorkingBuffer.new]

/-- Claim C2 as stated is false: here the fed byte completes the frame
`[6, 6, 6]`, the stored trailer equals the recomputed checksum, and the catalog
decode fails with `UnknownPacketId(6)` — yet `parse` returns `Ok(None)` (state
reset), not that `Err`. -/
theorem c2_decode_error_counterexample :
    (WorkingBuffer.mk [6, 6, 6]).is_complete = true ∧
    (WorkingBuffer.mk [6, 6, 6]).calc_checksum =
      some ((WorkingBuffer.mk [6, 6, 6]).stored_checksum) ∧
    Message.from_payload 6 ((WorkingBuffer.mk [6, 6, 6]).payload) =
      some (Except.error (ParseError.UnknownPacketId 6)) ∧
    Parser.parse { parsing := false, escaping := false, buffer := { data := [6, 6] } } 6 =
      some (Parser.new, Except.ok none) := by
  decide

/-- Claim C2 amended: when the fed byte completes a frame whose stored trailer
matches the recomputed checksum but whose catalog decode fails, `Parser::parse`
discards the decode error and returns `Ok(None)` from that call, with the
parser state reset (the source returns the typed message only `if
result.is_ok()` and otherwise falls through to `Ok(None)`). -/
theorem c2_decode_error_swallowed :
    ∀ (p : Parser) (x eff : Nat) (e : ParseError),
      (p.escaping = true → eff = x ^^^ 0x20) →
      (p.escaping = false → eff = x ∧ x ≠ 0x7d ∧ x ≠ 0x7e) →
      p.buffer.count < 128 →
      (WorkingBuffer.mk (p.buffer.data ++ [eff])).is_complete = true →
      (WorkingBuffer.mk (p.buffer.data ++ [eff])).calc_checksum =
        some ((WorkingBuffer.mk (p.buffer.data ++ [eff])).stored_checksum) →
      Message.from_payload ((p.buffer.data ++ [eff]).getD 0 0)
        ((WorkingBuffer.mk (p.buffer.data ++ [eff])).payload) = some (Except.error e) →
      Parser.parse p x = some (Parser.new, Except.ok none) := by
  intro p x eff e hesc hnesc hcap hcompl hchk hdec
  unfold Parser.parse
  by_cases hpe : p.escaping = true
  · rw [if_pos hpe, ← hesc hpe]
    exact parse_body_swallows_decode_error { p with escaping := false } eff e hcap hcompl hchk hdec
  · obtain ⟨hx, h7d, h7e⟩ := hnesc (by simpa using hpe)
    rw [if_neg hpe, if_neg h7d, if_neg h7e, ← hx]
    have hp : p = { p with escaping := false } := by
      cases p
      simp_all
    rw [hp] at hcap hcompl hchk hdec ⊢
    exact parse_body_swallows_decode_error { p with escaping := false } eff e hcap hcompl hchk hdec

theorem c2_decode_error_swallowed_witness :
    Parser.parse { parsing := false, escaping := false, buffer := { data := [6, 6] } } 6 =
      some (Parser.new, Except.ok none) :=
  c2_decode_error_swallowed
    { parsing := false, escaping := false, buffer := { data := [6, 6] } } 6 6
    (ParseError.UnknownPacketId 6) (by decide) (by decide) (by decide) (by decide)
    (by decide) (by decide)

/-! ## Frame-start byte and the escape flag (claim C6) -/

/-- Claim C6 as stated is false: with the escaping flag set, `0x7E` is XORed
with `0x20` and pushed as the data byte `0x5E` — the parser is not reset and
the buffer is non-empty afterwards. -/
theorem c6_frame_start_counterexample :
    Parser.parse { parsing := false, escaping := true, buffer := { data := [] } } 0x7e =
      some ({ parsing := false, escaping := false, buffer := { data := [0x5e] } }, Except.ok none) ∧
    ({ parsing := false, escaping := false, buffer := { data := [0x5e] } } : Parser) ≠ Parser.new := by
  decide

/-- Claim C6 amended: for every parser state whose escaping flag is clear,
feeding `0x7E` resets the parser to its initial state and returns `Ok(None)`;
with the flag set, the pending escape wins and `0x7E` is consumed as escaped
data instead. -/
theorem c6_frame_start_resets :
    ∀ p : Parser, p.escaping = false →
      Parser.parse p 0x7e = some (Parser.new, Except.ok none) := by
  intro p h
  unfold Parser.parse
  rw [if_neg (by simp [h]), if_neg (by decide), if_pos rfl]
  rfl

theorem c6_frame_start_resets_witness :
    Parser.parse { parsing := false, escaping := false, buffer := { data := [1, 2, 3] } } 0x7e =
      some (Parser.new, Except.ok none) :=
  c6_frame_start_resets { parsing := false, escaping := false, buffer := { data := [1, 2, 3] } } rfl

/-! ## Size probe vs decoder disagreement (claim C3) -/

/-- Claim C3 fails on the code at `COMMAND_ACK_ID` with the empty payload: the
probe answers `Some(0) = Some(len)`, yet `from_payload` returns
`DeserializationError` because `CommandAckStruct::try_from` requires one byte —
while `CommandAckStruct::payload` itself always emits exactly one byte, so the
probe contradicts the trait's own contract. -/
theorem c3_command_ack_probe_decoder_mismatch :
    Message.message_size COMMAND_ACK_ID [] = some (List.length ([] : List Nat)) ∧
    Message.from_payload COMMAND_ACK_ID [] =
      some (Except.error ParseError.DeserializationError) ∧
    (CommandAckStruct.mk 7).payload.length = 1 := by
  decide

/-! ## Round-trip failure for the MoveStepper variant (claim C1 counterexample) -/

/-- Claim C1 as stated is false: `serialize_msg` of the catalog variant
`MoveStepperMsg { steps: 0, period: 0 }` feeds back through a fresh parser as
three `Ok(None)`, then a `ChecksumError` (the catalog's size probe treats id 5
as unknown/zero-length, so the frame "completes" after three bytes), then four
more `Ok(None)` — no `Ok(Some(_))` at all and an error on an intermediate
byte. -/
theorem c1_roundtrip_counterexample :
    feed_all Parser.new (serialize_msg (Message.MoveStepperMsg (MoveStepperStruct.mk 0 0))) =
      some ({ parsing := false, escaping := false, buffer := { data := [0, 0, 5, 25] } },
        [Except.ok none, Except.ok none, Except.ok none,
         Except.error (ParseError.ChecksumError 0 1285),
         Except.ok none, Except.ok none, Except.ok none, Except.ok none]) := by
  decide

/-! ## Round-trip machinery (claim C1) -/

lemma escaped_push_eq (b : Nat) (buf : List Nat) : escaped_push b buf = buf ++ escSeq b := by
  unfold escaped_push escSeq
  split <;> rfl

lemma foldl_escaped_push (l : List Nat) : ∀ buf : List Nat,
    l.foldl (fun acc b => escaped_push b acc) buf = buf ++ l.flatMap escSeq := by
  induction l with
  | nil => intro buf; simp
  | cons x t ih =>
    intro buf
    rw [List.foldl_cons, ih, escaped_push_eq, List.flatMap_cons, List.append_assoc]

lemma serialize_raw_eq (id : Nat) (pl : List Nat) :
    serialize_raw id pl =
      0x7e :: (id :: (pl ++ [(checksum (id :: pl)).1, (checksum (id :: pl)).2])).flatMap escSeq := by
  show escaped_push (checksum (id :: pl)).2
      (escaped_push (checksum (id :: pl)).1
        (pl.foldl (fun buf b => escaped_push b buf) (escaped_push id [0x7e]))) = _
  rw [escaped_push_eq id, foldl_escaped_push, escaped_push_eq, escaped_push_eq]
  simp [List.flatMap_cons, List.flatMap_append]

lemma parse_body_not_complete (p : Parser) (b : Nat)
    (hcap : p.buffer.count < 128)
    (hnc : (WorkingBuffer.mk (p.buffer.data ++ [b])).is_complete = false) :
    Parser.parse_body p b =
      some ({ p with buffer := WorkingBuffer.mk (p.buffer.data ++ [b]) }, Except.ok none) := by
  have hpush : p.buffer.push b = (WorkingBuffer.mk (p.buffer.data ++ [b]), none) := by
    unfold WorkingBuffer.push MAX_MESSAGE_SIZE
    rw [if_pos hcap]
  unfold Parser.parse_body
  rw [hpush]
  simp [hnc]

lemma parse_body_complete_emit (p : Parser) (b : Nat) (m : Message)
    (hcap : p.buffer.count < 128)
    (hcompl : (WorkingBuffer.mk (p.buffer.data ++ [b])).is_complete = true)
    (hchk : (WorkingBuffer.mk (p.buffer.data ++ [b])).calc_checksum =
      some ((WorkingBuffer.mk (p.buffer.data ++ [b])).stored_checksum))
    (hdec : Message.from_payload ((p.buffer.data ++ [b]).getD 0 0)
      ((WorkingBuffer.mk (p.buffer.data ++ [b])).payload) = some (Except.ok m)) :
    Parser.parse_body p b = some (Parser.new, Except.ok (some m)) := by
  have hpush : p.buffer.push b = (WorkingBuffer.mk (p.buffer.data ++ [b]), none) := by
    unfold WorkingBuffer.push MAX_MESSAGE_SIZE
    rw [if_pos hcap]
  have hid : (WorkingBuffer.mk (p.buffer.data ++ [b])).msg_id =
      some ((p.buffer.data ++ [b]).getD 0 0) := by
    unfold WorkingBuffer.msg_id
    rw [if_pos (by simp [WorkingBuffer.count])]
  unfold Parser.parse_body
  rw [hpush]
  simp only [hcompl, hchk, hid, hdec, if_true]
  simp [Parser.reset, WorkingBuffer.reset, Parser.new, WorkingBuffer.new]

lemma feed_escByte (pr : Bool) (buf : WorkingBuffer) (b : Nat) (rest : List Nat) :
    feed_all ⟨pr, false, buf⟩ (escSeq b ++ rest) =
      match Parser.parse_body ⟨pr, false, buf⟩ b with
      | none => none
      | some (q, r) =>
        match feed_all q rest with
        | none => none
        | some (pf, rs) =>
          some (pf, (if b = 0x7d ∨ b = 0x7e then [Except.ok none] else []) ++ r :: rs) := by
  by_cases hb : b = 0x7d ∨ b = 0x7e
  · have hseq : escSeq b = [0x7d, b ^^^ 0x20] := by unfold escSeq; rw [if_pos hb]
    have h1 : Parser.parse ⟨pr, false, buf⟩ 0x7d = some (⟨pr, true, buf⟩, Except.ok none) := by
      unfold Parser.parse
      rw [if_neg (by simp), if_pos rfl]
    have h2 : Parser.parse ⟨pr, true, buf⟩ (b ^^^ 0x20) = Parser.parse_body ⟨pr, false, buf⟩ b := by
      unfold Parser.parse
      rw [if_pos rfl, Nat.xor_assoc, Nat.xor_self, Nat.xor_zero]
    rw [hseq, if_pos hb]
    cases hpb : Parser.parse_body ⟨pr, false, buf⟩ b with
    | none => simp [feed_all, h1, h2, hpb]
    | some qr =>
      obtain ⟨q, r⟩ := qr
      cases hfa : feed_all q rest with
      | none => simp [feed_all, h1, h2, hpb, hfa]
      | some pfrs =>
        obtain ⟨pf, rs⟩ := pfrs
        simp [feed_all, h1, h2, hpb, hfa]
  · have hseq : escSeq b = [b] := by unfold escSeq; rw [if_neg hb]
    have hb2 : ¬ b = 0x7d ∧ ¬ b = 0x7e := by
      constructor <;> intro hx <;> exact hb (by simp [hx])
    have h1 : Parser.parse ⟨pr, false, buf⟩ b = Parser.parse_body ⟨pr, false, buf⟩ b := by
      unfold Parser.parse
      rw [if_neg (by simp), if_neg hb2.1, if_neg hb2.2]
    rw [hseq, if_neg hb]
    cases hpb : Parser.parse_body ⟨pr, false, buf⟩ b with
    | none => simp [feed_all, h1, hpb]
    | some qr =>
      obtain ⟨q, r⟩ := qr
      cases hfa : feed_all q rest with
      | none => simp [feed_all, h1, hpb, hfa]
      | some pfrs =>
        obtain ⟨pf, rs⟩ := pfrs
        simp [feed_all, h1, hpb, hfa]

lemma feed_raw_list (bs : List Nat) : ∀ (pr : Bool) (data rest : List Nat),
    data.length + bs.length ≤ 128 →
    (∀ k, k < bs.length →
      (WorkingBuffer.mk (data ++ bs.take (k + 1))).is_complete = false) →
    feed_all ⟨pr, false, ⟨data⟩⟩ (bs.flatMap escSeq ++ rest) =
      match feed_all ⟨pr, false, ⟨data ++ bs⟩⟩ rest with
      | none => none
      | some (pf, rs) =>
        some (pf, List.replicate (bs.flatMap escSeq).length (Except.ok none) ++ rs) := by
  induction bs with
  | nil =>
    intro pr data rest _ _
    simp only [List.flatMap_nil, List.nil_append, List.append_nil, List.length_nil,
      List.replicate_zero]
    cases hfa : feed_all ⟨pr, false, ⟨data⟩⟩ rest with
    | none => rfl
    | some pfrs => rfl
  | cons b t ih =>
    intro pr data rest hlen hnc
    have hcap : (⟨data⟩ : WorkingBuffer).count < 128 := by
      show data.length < 128
      have hl : (b :: t).length = t.length + 1 := by simp
      omega
    have hb0 : (WorkingBuffer.mk (data ++ [b])).is_complete = false := by
      have := hnc 0 (by simp)
      simpa using this
    have hpb : Parser.parse_body ⟨pr, false, ⟨data⟩⟩ b =
        some (⟨pr, false, ⟨data ++ [b]⟩⟩, Except.ok none) :=
      parse_body_not_complete ⟨pr, false, ⟨data⟩⟩ b hcap hb0
    rw [List.flatMap_cons, List.append_assoc, feed_escByte]
    simp only [hpb]
    have ihlen : (data ++ [b]).length + t.length ≤ 128 := by
      simp only [List.length_append, List.length_singleton]
      have hl : (b :: t).length = t.length + 1 := by simp
      omega
    have ihnc : ∀ k, k < t.length →
        (WorkingBuffer.mk ((data ++ [b]) ++ t.take (k + 1))).is_complete = false := by
      intro k hk
      have := hnc (k + 1) (by simp; omega)
      simpa [List.take_succ_cons, List.append_assoc] using this
    have ih2 := ih pr (data ++ [b]) rest ihlen ihnc
    rw [ih2]
    have hdb : data ++ b :: t = (data ++ [b]) ++ t := by simp
    rw [hdb]
    cases hfa : feed_all ⟨pr, false, ⟨(data ++ [b]) ++ t⟩⟩ rest with
    | none => rfl
    | some pfrs =>
      obtain ⟨pf, rs⟩ := pfrs
      by_cases hb : b = 0x7d ∨ b = 0x7e
    -- length of the escape sequence is 2 or 1; fold the leading Ok(None)s into the replicate
      · have hseq : escSeq b = [0x7d, b ^^^ 0x20] := by unfold escSeq; rw [if_pos hb]
        simp [hb, hseq, List.replicate_succ, List.replicate_add]
      · have hseq : escSeq b = [b] := by unfold escSeq; rw [if_neg hb]
        simp [hb, hseq, List.replicate_succ, List.replicate_add]

lemma getD_append_len (l l2 : List Nat) (k : Nat) :
    (l ++ l2).getD (l.length + k) 0 = l2.getD k 0 := by
  induction l with
  | nil => simp
  | cons a t ih => simpa [Nat.succ_add] using ih

lemma frame_take (id c1 c2 : Nat) (pl : List Nat) :
    (id :: (pl ++ [c1, c2])).take (pl.length + 1) = id :: pl := by
  rw [List.take_succ_cons, List.take_left]

lemma frame_count (id c1 c2 : Nat) (pl : List Nat) :
    (WorkingBuffer.mk (id :: (pl ++ [c1, c2]))).count = pl.length + 3 := by
  show (id :: (pl ++ [c1, c2])).length = pl.length + 3
  simp

lemma frame_payload (id c1 c2 : Nat) (pl : List Nat) :
    (WorkingBuffer.mk (id :: (pl ++ [c1, c2]))).payload = pl := by
  unfold WorkingBuffer.payload
  rw [frame_count, if_pos (by omega)]
  have h2 : pl.length + 3 - 2 = pl.length + 1 := by omega
  rw [h2]
  show ((id :: (pl ++ [c1, c2])).take (pl.length + 1)).drop 1 = pl
  rw [frame_take]
  rfl

lemma frame_stored (id c1 c2 : Nat) (pl : List Nat) :
    (WorkingBuffer.mk (id :: (pl ++ [c1, c2]))).stored_checksum = (c1, c2) := by
  unfold WorkingBuffer.stored_checksum
  rw [frame_count, if_neg (by omega)]
  have hsplit : id :: (pl ++ [c1, c2]) = (id :: pl) ++ [c1, c2] := by simp
  have e1 : pl.length + 3 - 2 = (id :: pl).length + 0 := by simp
  have e2 : pl.length + 3 - 1 = (id :: pl).length + 1 := by simp
  rw [hsplit, e1, e2, getD_append_len, getD_append_len]
  rfl

lemma frame_calc (id c1 c2 : Nat) (pl : List Nat) :
    (WorkingBuffer.mk (id :: (pl ++ [c1, c2]))).calc_checksum = some (checksum (id :: pl)) := by
  unfold WorkingBuffer.calc_checksum
  rw [frame_count, if_pos (by omega), if_pos (by omega)]
  have h2 : pl.length + 3 - 2 = pl.length + 1 := by omega
  rw [h2]
  show some (checksum ((id :: (pl ++ [c1, c2])).take (pl.length + 1))) = _
  rw [frame_take]

lemma frame_msg_id (id c1 c2 : Nat) (pl : List Nat) :
    (WorkingBuffer.mk (id :: (pl ++ [c1, c2]))).msg_id = some id := by
  unfold WorkingBuffer.msg_id
  rw [if_pos (by rw [frame_count]; omega)]
  rfl

lemma cons_replicate_shift {α : Type} (x : α) (A : Nat) (tail : List α) :
    x :: (List.replicate A x ++ tail) = List.replicate A x ++ (x :: tail) := by
  induction A with
  | zero => rfl
  | succ n ih => simp only [List.replicate_succ, List.cons_append, ih]

lemma replicate_assemble {α : Type} (A E : Nat) (x y : α) (hE : 1 ≤ E) :
    x :: (List.replicate A x ++ (List.replicate (E - 1) x ++ [y])) =
      List.replicate (A + E) x ++ [y] := by
  rw [← List.cons_append, ← List.replicate_succ, ← List.append_assoc, ← List.replicate_add]
  have h2 : A + 1 + (E - 1) = A + E := by omega
  rw [h2]

lemma roundtrip_frame (id : Nat) (pl : List Nat) (m : Message)
    (hlen : pl.length + 3 ≤ 128)
    (hfull : (WorkingBuffer.mk
      (id :: (pl ++ [(checksum (id :: pl)).1, (checksum (id :: pl)).2]))).is_complete = true)
    (hpre : ∀ j, 1 ≤ j → j ≤ pl.length + 2 →
      (WorkingBuffer.mk
        ((id :: (pl ++ [(checksum (id :: pl)).1, (checksum (id :: pl)).2])).take j)).is_complete = false)
    (hdec : Message.from_payload id pl = some (Except.ok m)) :
    feed_all Parser.new (serialize_raw id pl) =
      some (Parser.new,
        List.replicate ((serialize_raw id pl).length - 1) (Except.ok none) ++
          [Except.ok (some m)]) := by
  rcases hch : checksum (id :: pl) with ⟨c1, c2⟩
  simp only [hch] at hfull hpre
  have hraw : id :: (pl ++ [c1, c2]) = (id :: (pl ++ [c1])) ++ [c2] := by simp
  have hser : serialize_raw id pl =
      0x7e :: ((id :: (pl ++ [c1])).flatMap escSeq ++ escSeq c2) := by
    rw [serialize_raw_eq, hch]
    show _ = 0x7e :: ((id :: (pl ++ [c1])).flatMap escSeq ++ escSeq c2)
    rw [hraw, List.flatMap_append]
    simp
  have h7e : Parser.parse Parser.new 0x7e = some (Parser.new, Except.ok none) := by
    unfold Parser.parse Parser.new
    rw [if_neg (by simp), if_neg (by decide), if_pos rfl]
    rfl
  have hinitlen : (id :: (pl ++ [c1])).length = pl.length + 2 := by simp
  have hfr := feed_raw_list (id :: (pl ++ [c1])) false [] (escSeq c2)
    (by rw [hinitlen]; simp; omega)
    (fun k hk => by
      rw [hinitlen] at hk
      have htk : (id :: (pl ++ [c1])).take (k + 1) =
          (id :: (pl ++ [c1, c2])).take (k + 1) := by
        rw [hraw, List.take_append_of_le_length (by rw [hinitlen]; omega)]
      simp only [List.nil_append, htk]
      exact hpre (k + 1) (by omega) (by omega))
  simp only [List.nil_append] at hfr
  have hemit : Parser.parse_body ⟨false, false, ⟨id :: (pl ++ [c1])⟩⟩ c2 =
      some (Parser.new, Except.ok (some m)) := by
    apply parse_body_complete_emit
    · show (id :: (pl ++ [c1])).length < 128
      rw [hinitlen]; omega
    · show (WorkingBuffer.mk ((id :: (pl ++ [c1])) ++ [c2])).is_complete = true
      rw [← hraw]; exact hfull
    · show (WorkingBuffer.mk ((id :: (pl ++ [c1])) ++ [c2])).calc_checksum =
        some ((WorkingBuffer.mk ((id :: (pl ++ [c1])) ++ [c2])).stored_checksum)
      rw [← hraw, frame_calc, frame_stored, hch]
    · show Message.from_payload (((id :: (pl ++ [c1])) ++ [c2]).getD 0 0)
        ((WorkingBuffer.mk ((id :: (pl ++ [c1])) ++ [c2])).payload) = some (Except.ok m)
      rw [← hraw, frame_payload]
      exact hdec
  have hlast : feed_all ⟨false, false, ⟨id :: (pl ++ [c1])⟩⟩ (escSeq c2) =
      some (Parser.new,
        List.replicate ((escSeq c2).length - 1) (Except.ok none) ++ [Except.ok (some m)]) := by
    have hfe := feed_escByte false ⟨id :: (pl ++ [c1])⟩ c2 []
    rw [List.append_nil] at hfe
    rw [hfe, hemit]
    by_cases hc : c2 = 0x7d ∨ c2 = 0x7e
    · have hseq : escSeq c2 = [0x7d, c2 ^^^ 0x20] := by unfold escSeq; rw [if_pos hc]
      simp [feed_all, hc, hseq]
    · have hseq : escSeq c2 = [c2] := by unfold escSeq; rw [if_neg hc]
      simp [feed_all, hc, hseq]
  rw [hser]
  show feed_all Parser.new (0x7e :: ((id :: (pl ++ [c1])).flatMap escSeq ++ escSeq c2)) = _
  simp only [feed_all, h7e]
  have hnew : (Parser.new : Parser) = ⟨false, false, ⟨[]⟩⟩ := rfl
  rw [← hnew] at hfr
  have hE : 1 ≤ (escSeq c2).length := by
    unfold escSeq
    split <;> simp
  simp only [hfr, hlast]
  rw [replicate_assemble _ _ _ _ hE]
  have hlen2 : (0x7e :: ((id :: (pl ++ [c1])).flatMap escSeq ++ escSeq c2)).length - 1 =
      ((id :: (pl ++ [c1])).flatMap escSeq).length + (escSeq c2).length := by
    simp
    omega
  rw [hlen2]

lemma getD_zero_take (l : List Nat) (j : Nat) (hj : 1 ≤ j) :
    (l.take j).getD 0 0 = l.getD 0 0 := by
  cases l with
  | nil => simp
  | cons a t =>
    cases j with
    | zero => omega
    | succ k => simp [List.take_succ_cons]

lemma getD_one_take (l : List Nat) (k : Nat) (hk : 2 ≤ k) :
    (l.take k).getD 1 0 = l.getD 1 0 := by
  cases l with
  | nil => simp
  | cons a t =>
    cases t with
    | nil =>
      cases k with
      | zero => omega
      | succ k2 => simp [List.take_succ_cons]
    | cons b t2 =>
      cases k with
      | zero => omega
      | succ k2 =>
        cases k2 with
        | zero => omega
        | succ k3 => simp [List.take_succ_cons]

lemma getD_mem_of_lt (l : List Nat) : ∀ k, k < l.length → l.getD k 0 ∈ l := by
  induction l with
  | nil => intro k hk; simp at hk
  | cons a t ih =>
    intro k hk
    cases k with
    | zero => simp
    | succ k2 =>
      simp only [List.getD_cons_succ]
      exact List.mem_cons_of_mem a (ih k2 (by simp at hk; omega))

lemma take_succ_getD (l : List Nat) : ∀ k, k < l.length → l.take (k + 1) = l.take k ++ [l.getD k 0] := by
  induction l with
  | nil => intro k hk; simp at hk
  | cons a t ih =>
    intro k hk
    cases k with
    | zero => simp
    | succ k2 =>
      rw [List.take_succ_cons, List.take_succ_cons, List.getD_cons_succ,
        ih k2 (by simp at hk; omega)]
      rfl

lemma is_complete_eq_of_probe (l : List Nat) (N : Nat) (h0 : l ≠ [])
    (hp : Message.message_size (l.getD 0 0) ((WorkingBuffer.mk l).payload) = some N) :
    (WorkingBuffer.mk l).is_complete = (if l.length = N + 3 then true else false) := by
  have hl : (WorkingBuffer.mk l).msg_id = some (l.getD 0 0) := by
    unfold WorkingBuffer.msg_id
    rw [if_pos (by show 0 < l.length; cases l with | nil => exact absurd rfl h0 | cons a t => simp)]
  unfold WorkingBuffer.is_complete
  simp only [hl, hp]
  rfl

lemma is_complete_false_of_probe_none (l : List Nat) (h0 : l ≠ [])
    (hp : Message.message_size (l.getD 0 0) ((WorkingBuffer.mk l).payload) = none) :
    (WorkingBuffer.mk l).is_complete = false := by
  have hl : (WorkingBuffer.mk l).msg_id = some (l.getD 0 0) := by
    unfold WorkingBuffer.msg_id
    rw [if_pos (by show 0 < l.length; cases l with | nil => exact absurd rfl h0 | cons a t => simp)]
  unfold WorkingBuffer.is_complete
  simp only [hl, hp]

lemma payload_short (l : List Nat) (h : l.length < 3) : (WorkingBuffer.mk l).payload = [] := by
  unfold WorkingBuffer.payload
  rw [if_neg (by show ¬ 3 ≤ l.length; omega)]

lemma prefix_count (id : Nat) (pl : List Nat) (c1 c2 j : Nat) (hj : j ≤ pl.length + 3) :
    (WorkingBuffer.mk ((id :: (pl ++ [c1, c2])).take j)).count = j := by
  show ((id :: (pl ++ [c1, c2])).take j).length = j
  rw [List.length_take]
  simp
  omega

lemma prefix_payload (id : Nat) (pl : List Nat) (c1 c2 j : Nat)
    (h3 : 3 ≤ j) (hj : j ≤ pl.length + 2) :
    (WorkingBuffer.mk ((id :: (pl ++ [c1, c2])).take j)).payload = pl.take (j - 3) := by
  unfold WorkingBuffer.payload
  rw [prefix_count id pl c1 c2 j (by omega), if_pos h3, List.take_take]
  have hmin : min (j - 2) j = j - 2 := by omega
  rw [hmin]
  have e : j - 2 = (j - 3) + 1 := by omega
  rw [e, List.take_succ_cons, List.take_append_of_le_length (by omega)]
  rfl

lemma electrode_frame_complete (pl : List Nat) (c1 c2 : Nat) (hwf : pl.length = 16) :
    (WorkingBuffer.mk (ELECTRODE_ENABLE_ID :: (pl ++ [c1, c2]))).is_complete = true := by
  rw [is_complete_eq_of_probe _ 16 (by simp) (by rfl)]
  rw [if_pos (by simp [hwf])]

lemma electrode_prefix_incomplete (pl : List Nat) (c1 c2 : Nat) (hwf : pl.length = 16) :
    ∀ j, 1 ≤ j → j ≤ pl.length + 2 →
      (WorkingBuffer.mk ((ELECTRODE_ENABLE_ID :: (pl ++ [c1, c2])).take j)).is_complete = false := by
  intro j h1 h2
  have hne : (ELECTRODE_ENABLE_ID :: (pl ++ [c1, c2])).take j ≠ [] := by
    apply List.ne_nil_of_length_pos
    rw [List.length_take]
    simp
    omega
  rw [is_complete_eq_of_probe _ 16 hne (by rw [getD_zero_take _ _ h1]; rfl)]
  rw [if_neg (by rw [List.length_take]; simp; omega)]

lemma electrode_decode (s : ElectrodeEnableStruct) (hwf : s.values.length = 16) :
    Message.from_payload ELECTRODE_ENABLE_ID s.payload =
      some (Except.ok (Message.ElectrodeEnableMsg s)) := by
  unfold Message.from_payload
  rw [if_pos rfl]
  unfold ElectrodeEnableStruct.try_from ElectrodeEnableStruct.payload
  rw [if_neg (by simp [hwf])]
  rfl

lemma active_frame_complete (pl : List Nat) (c1 c2 : Nat) (hwf : pl.length = 4) :
    (WorkingBuffer.mk (ACTIVE_CAPACITANCE_ID :: (pl ++ [c1, c2]))).is_complete = true := by
  rw [is_complete_eq_of_probe _ 4 (by simp) (by rfl)]
  rw [if_pos (by simp [hwf])]

lemma active_prefix_incomplete (pl : List Nat) (c1 c2 : Nat) (hwf : pl.length = 4) :
    ∀ j, 1 ≤ j → j ≤ pl.length + 2 →
      (WorkingBuffer.mk ((ACTIVE_CAPACITANCE_ID :: (pl ++ [c1, c2])).take j)).is_complete = false := by
  intro j h1 h2
  have hne : (ACTIVE_CAPACITANCE_ID :: (pl ++ [c1, c2])).take j ≠ [] := by
    apply List.ne_nil_of_length_pos
    rw [List.length_take]
    simp
    omega
  rw [is_complete_eq_of_probe _ 4 hne (by rw [getD_zero_take _ _ h1]; rfl)]
  rw [if_neg (by rw [List.length_take]; simp; omega)]

lemma active_decode (s : ActiveCapacitanceStruct)
    (hb : s.baseline < 65536) (hm : s.measurement < 65536) :
    Message.from_payload ACTIVE_CAPACITANCE_ID s.payload =
      some (Except.ok (Message.ActiveCapacitanceMsg s)) := by
  unfold Message.from_payload
  rw [if_neg (by decide), if_neg (by decide), if_pos rfl]
  unfold ActiveCapacitanceStruct.try_from ActiveCapacitanceStruct.payload
  rw [if_neg (by simp)]
  simp only [List.getD_cons_succ, List.getD_cons_zero]
  have e1 : s.baseline % 256 + s.baseline / 256 % 256 * 256 = s.baseline := by omega
  have e2 : s.measurement % 256 + s.measurement / 256 % 256 * 256 = s.measurement := by omega
  rw [e1, e2]
  rfl

lemma pairs_length (vs : List Nat) :
    (vs.flatMap (fun x => [x % 256, x / 256 % 256])).length = 2 * vs.length := by
  induction vs with
  | nil => rfl
  | cons v t ih =>
    simp only [List.flatMap_cons, List.length_append, ih, List.length_cons]
    simp
    omega

lemma pairs_get (vs : List Nat) : ∀ k, k < vs.length →
    (vs.flatMap (fun x => [x % 256, x / 256 % 256])).get? (2 * k) = some (vs.getD k 0 % 256) ∧
    (vs.flatMap (fun x => [x % 256, x / 256 % 256])).get? (2 * k + 1) =
      some (vs.getD k 0 / 256 % 256) := by
  induction vs with
  | nil => intro k hk; simp at hk
  | cons v t ih =>
    intro k hk
    cases k with
    | zero => simp [List.flatMap_cons]
    | succ k2 =>
      have hih := ih k2 (by simp at hk; omega)
      have e1 : 2 * (k2 + 1) = 2 * k2 + 1 + 1 := by omega
      have e2 : 2 * (k2 + 1) + 1 = 2 * k2 + 1 + 1 + 1 := by omega
      rw [List.flatMap_cons, e2, e1]
      simp only [List.cons_append, List.nil_append, List.get?_cons_succ, List.getD_cons_succ]
      exact ⟨hih.1, hih.2⟩

lemma bulk_payload_length (s : BulkCapacitanceStruct) :
    s.payload.length = 2 * s.values.length + 2 := by
  unfold BulkCapacitanceStruct.payload
  rw [List.length_cons, List.length_cons, pairs_length]

lemma bulk_probe_from (s : BulkCapacitanceStruct) (hlen : s.values.length ≤ 61) :
    Message.message_size BULK_CAPACITANCE_ID s.payload = some s.payload.length := by
  unfold Message.message_size
  rw [if_neg (by decide), if_pos rfl]
  unfold BulkCapacitanceStruct.message_size
  rw [if_neg (by rw [bulk_payload_length]; omega)]
  have hg : s.payload.getD 1 0 = s.values.length := by
    unfold BulkCapacitanceStruct.payload
    simp only [List.getD_cons_succ, List.getD_cons_zero]
    exact Nat.mod_eq_of_lt (by omega)
  rw [hg, bulk_payload_length]
  rw [Nat.mod_eq_of_lt (by omega)]
  congr 1
  omega

lemma bulk_frame_complete (s : BulkCapacitanceStruct) (hlen : s.values.length ≤ 61) (c1 c2 : Nat) :
    (WorkingBuffer.mk (BULK_CAPACITANCE_ID :: (s.payload ++ [c1, c2]))).is_complete = true := by
  rw [is_complete_eq_of_probe _ s.payload.length (by simp) (by
    rw [frame_payload]
    exact bulk_probe_from s hlen)]
  rw [if_pos (by simp)]

lemma bulk_prefix_incomplete (s : BulkCapacitanceStruct) (hlen : s.values.length ≤ 61)
    (c1 c2 : Nat) :
    ∀ j, 1 ≤ j → j ≤ s.payload.length + 2 →
      (WorkingBuffer.mk ((BULK_CAPACITANCE_ID :: (s.payload ++ [c1, c2])).take j)).is_complete =
        false := by
  intro j h1 h2
  have hpll := bulk_payload_length s
  have hne : (BULK_CAPACITANCE_ID :: (s.payload ++ [c1, c2])).take j ≠ [] := by
    apply List.ne_nil_of_length_pos
    rw [List.length_take]
    simp
    omega
  have hg : ((BULK_CAPACITANCE_ID :: (s.payload ++ [c1, c2])).take j).getD 0 0 =
      BULK_CAPACITANCE_ID := by
    rw [getD_zero_take _ _ h1]
    rfl
  by_cases h3 : 3 ≤ j
  · have hpay := prefix_payload BULK_CAPACITANCE_ID s.payload c1 c2 j h3 h2
    by_cases h5 : 5 ≤ j
    · have hp : Message.message_size
          (((BULK_CAPACITANCE_ID :: (s.payload ++ [c1, c2])).take j).getD 0 0)
          ((WorkingBuffer.mk ((BULK_CAPACITANCE_ID :: (s.payload ++ [c1, c2])).take j)).payload) =
          some (s.values.length * 2 + 2) := by
        rw [hg, hpay]
        unfold Message.message_size
        rw [if_neg (by decide), if_pos rfl]
        unfold BulkCapacitanceStruct.message_size
        have hlt : (s.payload.take (j - 3)).length = j - 3 := by
          rw [List.length_take]
          omega
        rw [if_neg (by rw [hlt]; omega)]
        have hg1 : (s.payload.take (j - 3)).getD 1 0 = s.values.length := by
          rw [getD_one_take _ _ (by omega)]
          unfold BulkCapacitanceStruct.payload
          simp only [List.getD_cons_succ, List.getD_cons_zero]
          exact Nat.mod_eq_of_lt (by omega)
        rw [hg1, Nat.mod_eq_of_lt (by omega)]
      rw [is_complete_eq_of_probe _ (s.values.length * 2 + 2) hne hp]
      rw [if_neg (by rw [List.length_take]; simp; omega)]
    · have hp : Message.message_size
          (((BULK_CAPACITANCE_ID :: (s.payload ++ [c1, c2])).take j).getD 0 0)
          ((WorkingBuffer.mk ((BULK_CAPACITANCE_ID :: (s.payload ++ [c1, c2])).take j)).payload) =
          none := by
        rw [hg, hpay]
        unfold Message.message_size
        rw [if_neg (by decide), if_pos rfl]
        unfold BulkCapacitanceStruct.message_size
        rw [if_pos (by rw [List.length_take]; omega)]
      exact is_complete_false_of_probe_none _ hne hp
  · have hpay : (WorkingBuffer.mk ((BULK_CAPACITANCE_ID :: (s.payload ++ [c1, c2])).take j)).payload =
        [] := by
      apply payload_short
      rw [List.length_take]
      simp
      omega
    have hp : Message.message_size
        (((BULK_CAPACITANCE_ID :: (s.payload ++ [c1, c2])).take j).getD 0 0)
        ((WorkingBuffer.mk ((BULK_CAPACITANCE_ID :: (s.payload ++ [c1, c2])).take j)).payload) =
        none := by
      rw [hg, hpay]
      rfl
    exact is_complete_false_of_probe_none _ hne hp

lemma bulk_read_values_take (a L : Nat) (vs : List Nat)
    (hlen : vs.length ≤ 61) (hv : ∀ x ∈ vs, x < 65536) :
    ∀ k, k ≤ vs.length →
      bulk_read_values (a :: L :: vs.flatMap (fun x => [x % 256, x / 256 % 256])) k =
        some (vs.take k) := by
  intro k
  induction k with
  | zero => intro _; rfl
  | succ k2 ih =>
    intro hk
    have hk2 : k2 < vs.length := by omega
    have hpg := pairs_get vs k2 hk2
    have hx : vs.getD k2 0 < 65536 := hv _ (getD_mem_of_lt vs k2 hk2)
    rw [bulk_read_values, ih (by omega)]
    have i1 : (k2 * 2 + 2) % 256 = k2 * 2 + 2 := Nat.mod_eq_of_lt (by omega)
    have i2 : (k2 * 2 + 3) % 256 = k2 * 2 + 3 := Nat.mod_eq_of_lt (by omega)
    rw [i1, i2]
    have j1 : (a :: L :: vs.flatMap (fun x => [x % 256, x / 256 % 256])).get? (k2 * 2 + 2) =
        some (vs.getD k2 0 % 256) := by
      have e : k2 * 2 + 2 = 2 * k2 + 1 + 1 := by omega
      rw [e, List.get?_cons_succ, List.get?_cons_succ]
      exact hpg.1
    have j2 : (a :: L :: vs.flatMap (fun x => [x % 256, x / 256 % 256])).get? (k2 * 2 + 3) =
        some (vs.getD k2 0 / 256 % 256) := by
      have e : k2 * 2 + 3 = 2 * k2 + 1 + 1 + 1 := by omega
      rw [e, List.get?_cons_succ, List.get?_cons_succ]
      exact hpg.2
    rw [j1, j2]
    have hval : vs.getD k2 0 % 256 + vs.getD k2 0 / 256 % 256 * 256 = vs.getD k2 0 := by omega
    show some (vs.take k2 ++ [vs.getD k2 0 % 256 + vs.getD k2 0 / 256 % 256 * 256]) =
      some (vs.take (k2 + 1))
    rw [hval, take_succ_getD vs k2 hk2]

lemma bulk_decode (s : BulkCapacitanceStruct) (hlen : s.values.length ≤ 61)
    (hv : ∀ x ∈ s.values, x < 65536) :
    Message.from_payload BULK_CAPACITANCE_ID s.payload =
      some (Except.ok (Message.BulkCapacitanceMsg s)) := by
  unfold Message.from_payload
  rw [if_neg (by decide), if_pos rfl]
  have hg : s.payload.getD 1 0 = s.values.length := by
    unfold BulkCapacitanceStruct.payload
    simp only [List.getD_cons_succ, List.getD_cons_zero]
    exact Nat.mod_eq_of_lt (by omega)
  have hbr : bulk_read_values s.payload s.values.length = some s.values := by
    show bulk_read_values
      (s.start_index :: s.values.length % 256 :: s.values.flatMap (fun x => [x % 256, x / 256 % 256]))
      s.values.length = some s.values
    rw [bulk_read_values_take s.start_index (s.values.length % 256) s.values hlen hv
      s.values.length (le_refl _)]
    rw [List.take_length]
  simp only [BulkCapacitanceStruct.try_from]
  rw [if_neg (by rw [bulk_payload_length]; omega), hg]
  rw [if_neg (by rw [bulk_payload_length, Nat.mod_eq_of_lt (by omega)]; omega)]
  rw [hbr]
  have h0 : s.payload.getD 0 0 = s.start_index := rfl
  rw [h0]
  rfl

/-- The domain on which the encoder/parser round-trip can hold: well-formed
field values (the Rust types' invariants) for the three variants whose ids the
catalog dispatch actually handles consistently, with bulk readings few enough
to fit the 128-byte receive buffer.  `CommandAckMsg` (size probe `Some(0)` vs
1-byte payload) and `MoveStepperMsg` (no dispatch arm for id 5) never
round-trip. -/
def RoundTripSafe : Message → Prop
  | Message.ElectrodeEnableMsg s => s.values.length = 16 ∧ ∀ x ∈ s.values, x < 256
  | Message.BulkCapacitanceMsg s =>
      s.start_index < 256 ∧ s.values.length ≤ 61 ∧ ∀ x ∈ s.values, x < 65536
  | Message.ActiveCapacitanceMsg s => s.baseline < 65536 ∧ s.measurement < 65536
  | Message.CommandAckMsg _ => False
  | Message.MoveStepperMsg _ => False

/-- Claim C1 amended: the byte-by-byte round-trip (one `Ok(Some(m))` on the
final byte, `Ok(None)` on every other byte, no errors) holds exactly for the
well-formed `ElectrodeEnableMsg`, `BulkCapacitanceMsg` (with at most 61
readings), and `ActiveCapacitanceMsg`; it fails for `CommandAckMsg` and
`MoveStepperMsg`, whose frames complete prematurely and raise a
`ChecksumError`, and for oversized bulk frames, which overrun the buffer. -/
theorem c1_roundtrip_amended : ∀ m : Message, RoundTripSafe m →
    feed_all Parser.new (serialize_msg m) =
      some (Parser.new,
        List.replicate ((serialize_msg m).length - 1) (Except.ok none) ++
          [Except.ok (some m)]) := by
  intro m h
  cases m with
  | ElectrodeEnableMsg s =>
    obtain ⟨hwf, _⟩ := h
    show feed_all Parser.new (serialize_raw ELECTRODE_ENABLE_ID s.payload) =
      some (Parser.new,
        List.replicate ((serialize_raw ELECTRODE_ENABLE_ID s.payload).length - 1) (Except.ok none) ++
          [Except.ok (some (Message.ElectrodeEnableMsg s))])
    apply roundtrip_frame
    · show s.values.length + 3 ≤ 128
      omega
    · exact electrode_frame_complete s.payload _ _ hwf
    · exact electrode_prefix_incomplete s.payload _ _ hwf
    · exact electrode_decode s hwf
  | BulkCapacitanceMsg s =>
    obtain ⟨_, hlen, hv⟩ := h
    show feed_all Parser.new (serialize_raw BULK_CAPACITANCE_ID s.payload) =
      some (Parser.new,
        List.replicate ((serialize_raw BULK_CAPACITANCE_ID s.payload).length - 1) (Except.ok none) ++
          [Except.ok (some (Message.BulkCapacitanceMsg s))])
    apply roundtrip_frame
    · rw [bulk_payload_length]
      omega
    · exact bulk_frame_complete s hlen _ _
    · exact bulk_prefix_incomplete s hlen _ _
    · exact bulk_decode s hlen hv
  | ActiveCapacitanceMsg s =>
    obtain ⟨hb, hm⟩ := h
    show feed_all Parser.new (serialize_raw ACTIVE_CAPACITANCE_ID s.payload) =
      some (Parser.new,
        List.replicate ((serialize_raw ACTIVE_CAPACITANCE_ID s.payload).length - 1) (Except.ok none) ++
          [Except.ok (some (Message.ActiveCapacitanceMsg s))])
    apply roundtrip_frame
    · show (4 : Nat) + 3 ≤ 128
      decide
    · exact active_frame_complete s.payload _ _ rfl
    · exact active_prefix_incomplete s.payload _ _ rfl
    · exact active_decode s hb hm
  | CommandAckMsg s => exact absurd h (by simp [RoundTripSafe])
  | MoveStepperMsg s => exact absurd h (by simp [RoundTripSafe])

theorem c1_roundtrip_amended_witness :
    feed_all Parser.new
        (serialize_msg (Message.ActiveCapacitanceMsg (ActiveCapacitanceStruct.mk 0x302 0x504))) =
      some (Parser.new,
        List.replicate
            ((serialize_msg (Message.ActiveCapacitanceMsg (ActiveCapacitanceStruct.mk 0x302 0x504))).length - 1)
            (Except.ok none) ++
          [Except.ok (some (Message.ActiveCapacitanceMsg (ActiveCapacitanceStruct.mk 0x302 0x504)))]) :=
  c1_roundtrip_amended (Message.ActiveCapacitanceMsg (ActiveCapacitanceStruct.mk 0x302 0x504))
    (by exact ⟨by decide, by decide⟩)
